import Mathlib

/-!
Verification of the Email Manager client (GmailManager.py).

The development shallowly embeds the Email class of the repository. Strings
are modelled as lists of characters, so that the Python string operations
(containment, split, strip, lower, join) become ordinary list functions.
Mail messages are modelled as a finite tree: a leaf part holds headers and a
raw payload string, a multipart container holds headers and an ordered list
of sub-parts, exactly the shape exposed by the email.message.Message API
used in the source.

External collaborators (smtplib, imaplib, the email package) are modelled
from their documented CPython semantics where the source calls into them:
the network session is an explicit environment record, and header-parameter
parsing follows email.message.Message.get_param / get_filename.
-/

set_option maxRecDepth 20000

namespace EmailManager

/-- Strings are modelled as lists of characters. -/
abbrev Str := List Char

/-- Conversion from a Lean string literal to the model of strings. -/
def str (s : String) : Str := s.toList

/-- Python str.lower, character-wise lowering. -/
def strLower (s : Str) : Str := s.map Char.toLower

/-- Python str.lstrip with default whitespace. -/
def stripL (s : Str) : Str := s.dropWhile Char.isWhitespace

/-- Python str.rstrip with default whitespace. -/
def stripR (s : Str) : Str := (s.reverse.dropWhile Char.isWhitespace).reverse

/-- Python str.strip with default whitespace. -/
def strip (s : Str) : Str := stripR (stripL s)

/-- Python substring containment: needle in haystack for strings. The empty
needle is contained in every string. -/
def isSubstr (needle : Str) : Str → Bool
  | [] => needle.isEmpty
  | c :: rest => needle.isPrefixOf (c :: rest) || isSubstr needle rest

/-- Python str.split(sep) for a one-character separator: splits the string at
every occurrence of the character; always returns at least one chunk. -/
def splitOnChar (c : Char) : Str → List Str
  | [] => [[]]
  | a :: t =>
    match splitOnChar c t with
    | [] => [[]]
    | h :: r => if a == c then [] :: h :: r else (a :: h) :: r

/-- Python str.split(sep, 1): splits at the first occurrence of the
character, or reports that the character does not occur. -/
def splitAtFirst (c : Char) : Str → Option (Str × Str)
  | [] => none
  | a :: t =>
    if a == c then some ([], t)
    else (splitAtFirst c t).map (fun p => (a :: p.1, p.2))

/-- Model of email.utils.unquote: removes one level of surrounding double
quotes or angle brackets from a parameter value. Backslash unescaping inside
a quoted value is not modelled; no theorem below evaluates it on a value
with interior escapes. -/
def unquote (v : Str) : Str :=
  if v.length > 1 then
    if v.headD ' ' == '"' && v.getLastD ' ' == '"' then (v.drop 1).dropLast
    else if v.headD ' ' == '<' && v.getLastD ' ' == '>' then (v.drop 1).dropLast
    else v
  else v

/-- Model of the header-parameter parsing done by
email.message.Message.get_params: the header value is split on semicolons,
each piece is split at its first equals sign into a lowercased stripped name
and a stripped value, and a piece without an equals sign becomes a bare
attribute with an empty value. Quote-aware semicolon splitting of RFC 2231
is not modelled; the theorems below that quantify over header values assume
the value holds no double quote. -/
def parseParams (v : Str) : List (Str × Str) :=
  (splitOnChar ';' v).map (fun piece =>
    match splitAtFirst '=' piece with
    | some p => (strLower (strip p.1), strip p.2)
    | none => (strLower (strip piece), []))

/-- Model of email.message.Message: a message part is either a leaf with
headers and a raw payload string, or a multipart container with headers and
an ordered list of sub-parts. This is the navigable structure produced by
email.message_from_bytes and consumed by every helper of the source. -/
inductive Msg : Type where
  | leaf (headers : List (Str × Str)) (payload : Str)
  | multi (headers : List (Str × Str)) (parts : List Msg)

/-- Header list of a message part, in stored order, duplicates included,
exactly what email.message.Message.items returns. -/
def msgHeaders : Msg → List (Str × Str)
  | .leaf h _ => h
  | .multi h _ => h

/-- Model of email.message.Message.get (and the subscript operator): the
value of the first header whose name matches case-insensitively, if any. -/
def msgGet (m : Msg) (name : Str) : Option Str :=
  ((msgHeaders m).find? (fun kv => strLower kv.1 == strLower name)).map Prod.snd

/-- Model of email.message.Message.get_content_type: the first
semicolon-chunk of the Content-Type header, stripped and lowercased, with
default text/plain when the header is missing or has not exactly one
slash. The digest-container default of message/rfc822 is not modelled; it
can never make a part count as multipart, the only use below. -/
def get_content_type (m : Msg) : Str :=
  match msgGet m (str "Content-Type") with
  | none => str "text/plain"
  | some v =>
    let ctype := strLower (strip ((splitOnChar ';' v).headD []))
    if ctype.count '/' == 1 then ctype else str "text/plain"

/-- Model of email.message.Message.get_content_maintype: the part of the
content type before the slash. -/
def get_content_maintype (m : Msg) : Str :=
  (splitOnChar '/' (get_content_type m)).headD []

/-- Model of email.message.Message.get_param: looks up a parameter by
lowercased name in the parsed parameter list of the given header and
unquotes its value. -/
def getParamVal (m : Msg) (header pname : Str) : Option Str :=
  (msgGet m header).bind (fun v =>
    ((parseParams v).find? (fun p => p.1 == pname)).map (fun p => unquote p.2))

/-- Model of email.message.Message.get_filename: the filename parameter of
the Content-Disposition header, else the name parameter of the Content-Type
header, unquoted once more and stripped, as CPython collapses and strips
the value. -/
def get_filename (m : Msg) : Option Str :=
  match getParamVal m (str "Content-Disposition") (str "filename") with
  | some v => some (strip (unquote v))
  | none =>
    match getParamVal m (str "Content-Type") (str "name") with
    | some v => some (strip (unquote v))
    | none => none

/-- Python bool() truthiness on an optional string: false for None and for
the empty string. -/
def pyBool : Option Str → Bool
  | none => false
  | some s => !s.isEmpty

mutual

/-- Model of email.message.Message.walk: depth-first preorder traversal,
yielding the part itself and then walking each sub-part in order. -/
def walk : Msg → List Msg
  | .leaf h p => [.leaf h p]
  | .multi h parts => .multi h parts :: walkList parts

/-- Traversal of a list of sub-parts, in order. -/
def walkList : List Msg → List Msg
  | [] => []
  | m :: rest => walk m ++ walkList rest

end

/-- Base64 alphabet lookup. -/
def b64Char (n : Nat) : Char :=
  (str "ABCDEFGHIJKLMNOPQRSTUVWXYZabcdefghijklmnopqrstuvwxyz0123456789+/").getD n 'A'

/-- Base64 encoding of a byte list, without the line wrapping that
encoders.encode_base64 adds; no theorem below inspects an encoded payload. -/
def base64Encode : List Nat → Str
  | [] => []
  | [b1] => [b64Char (b1 / 4), b64Char (b1 % 4 * 16), '=', '=']
  | [b1, b2] => [b64Char (b1 / 4), b64Char (b1 % 4 * 16 + b2 / 16), b64Char (b2 % 16 * 4), '=']
  | b1 :: b2 :: b3 :: rest =>
    [b64Char (b1 / 4), b64Char (b1 % 4 * 16 + b2 / 16),
     b64Char (b2 % 16 * 4 + b3 / 64), b64Char (b3 % 64)] ++ base64Encode rest

/-- Value of a base64 alphabet character. -/
def b64Val (c : Char) : Option Nat :=
  (str "ABCDEFGHIJKLMNOPQRSTUVWXYZabcdefghijklmnopqrstuvwxyz0123456789+/").findIdx? (fun a => a == c)

/-- Regrouping of six-bit values into bytes for base64 decoding. -/
def b64Regroup : List Nat → List Nat
  | v1 :: v2 :: v3 :: v4 :: rest =>
    (v1 * 4 + v2 / 16) :: (v2 % 16 * 16 + v3 / 4) :: (v3 % 4 * 64 + v4) :: b64Regroup rest
  | [v1, v2] => [v1 * 4 + v2 / 16]
  | [v1, v2, v3] => [v1 * 4 + v2 / 16, v2 % 16 * 16 + v3 / 4]
  | _ => []

/-- Base64 decoding of a string: non-alphabet characters are skipped, as the
binascii decoder does in non-strict mode. -/
def base64Decode (s : Str) : Str :=
  (b64Regroup (s.filterMap b64Val)).map Char.ofNat

/-- Model of email.message.Message.get_payload(None, decode=True) on a leaf
part: the payload decoded according to the Content-Transfer-Encoding
header. Base64 is decoded; 7bit, 8bit and missing encodings return the raw
payload, as CPython does for encodings it does not recognize.
Quoted-printable decoding is not modelled; no message built or analysed by
the theorems below carries that encoding. -/
def decodeTransfer (headers : List (Str × Str)) (payload : Str) : Str :=
  let cte := strLower ((((headers.find?
    (fun kv => strLower kv.1 == str "content-transfer-encoding"))).map Prod.snd).getD [])
  if cte == str "base64" then base64Decode payload else payload

/-- Result of a call to send_email: either a normal string return value or
an uncaught Python exception propagating to the caller. -/
inductive SendResult : Type where
  | returned (s : Str)
  | raised (e : Str)

/-- Environment for one send_email call: the filesystem (contents of a
readable file by path, none when opening raises) and the outcome of each
stage of the SMTP dialogue (connect, login, MAIL FROM, per-recipient RCPT,
DATA), with the human-readable text of each possible exception. -/
structure SmtpEnv : Type where
  fs : Str → Option (List Nat)
  connectOk : Bool
  connectErr : Str
  loginOk : Bool
  loginErr : Str
  mailFromOk : Bool
  rcptOk : Str → Bool
  dataOk : Bool
  dataErr : Str

/-- Python attachment.split(sep)[-1] for the slash separator: the last path
segment of the attachment path. -/
def lastSegment (path : Str) : Str := (splitOnChar '/' path).getLastD []

/-- The MIMEText(body, "plain") part attached as the message body in
send_email, with the headers MIMEText sets. -/
def textPart (body : Str) : Msg :=
  .leaf [(str "Content-Type", str "text/plain; charset=us-ascii"),
         (str "MIME-Version", str "1.0"),
         (str "Content-Transfer-Encoding", str "7bit")] body

/-- The attachment part built by send_email: a MIMEBase application part
whose payload is the base64-encoded file contents, with the
Content-Disposition header added by the source, including its literal space
after the equals sign. -/
def attachmentPart (path : Str) (contents : List Nat) : Msg :=
  .leaf [(str "Content-Type", str "application/octet-stream"),
         (str "MIME-Version", str "1.0"),
         (str "Content-Transfer-Encoding", str "base64"),
         (str "Content-Disposition", str "attachment; filename= " ++ lastSegment path)]
        (base64Encode contents)

/-- The MIMEMultipart message built by send_email: From is the sender
address, To is the comma-space join of the recipients, Subject as given,
then the plain-text body part and the optional attachment part. -/
def buildMessage (sender : Str) (recipients : List Str) (subject body : Str)
    (attPart : Option Msg) : Msg :=
  .multi [(str "Content-Type", str "multipart/mixed"),
          (str "MIME-Version", str "1.0"),
          (str "From", sender),
          (str "To", List.intercalate (str ", ") recipients),
          (str "Subject", subject)]
         ([textPart body] ++ attPart.toList)

/-- Model of smtplib.SMTP.sendmail from its CPython implementation: MAIL
FROM failure raises SMTPSenderRefused; every refused recipient is recorded
in a dictionary keyed by address; when that dictionary is as large as the
recipient list, so in particular when the recipient list is empty, it
raises SMTPRecipientsRefused; otherwise the DATA stage may raise. The
421-disconnect path and the exception reprs are abstracted into plain
descriptive strings. -/
def sendmailModel (env : SmtpEnv) (to_addrs : List Str) : Except Str Unit :=
  if !env.mailFromOk then .error (str "SMTPSenderRefused")
  else
    let senderrs := (to_addrs.filter (fun r => !env.rcptOk r)).eraseDups
    if senderrs.length == to_addrs.length then
      .error (str "SMTPRecipientsRefused: all recipients were refused")
    else if !env.dataOk then .error env.dataErr
    else .ok ()

/-- The try block of send_email: opens the SMTP session, logs in, submits,
and converts any exception of those three stages into the Failed-to-send
string result. The message argument is serialized and handed over but its
content does not influence the outcome, as in the source. -/
def trySend (env : SmtpEnv) (recipients : List Str) (_msg : Msg) : SendResult :=
  if !env.connectOk then
    .returned (str "Failed to send email. Error: " ++ env.connectErr)
  else if !env.loginOk then
    .returned (str "Failed to send email. Error: " ++ env.loginErr)
  else
    match sendmailModel env recipients with
    | .error e => .returned (str "Failed to send email. Error: " ++ e)
    | .ok _ => .returned (str "Email sent successfully.")

/-- Model of Email.send_email: builds the multipart message, and when a
truthy attachment path is given first opens and reads the file outside the
try block, so a failing read raises to the caller; then runs the guarded
session. Python truthiness makes an empty attachment path behave like no
attachment. -/
def send_email (env : SmtpEnv) (sender : Str) (recipients : List Str)
    (subject body : Str) (attachment : Option Str) : SendResult :=
  match attachment with
  | none => trySend env recipients (buildMessage sender recipients subject body none)
  | some path =>
    if path.isEmpty then
      trySend env recipients (buildMessage sender recipients subject body none)
    else
      match env.fs path with
      | none => .raised (str "FileNotFoundError: No such file or directory: " ++ path)
      | some contents =>
        trySend env recipients
          (buildMessage sender recipients subject body
            (some (attachmentPart path contents)))

/-- Python equality between a string and an email.message.Message object,
as evaluated by the membership test of get_emails_by_body on a multipart
payload: a str never equals a Message, so the comparison is always false. -/
def pyEqStrMsg (_q : Str) (_m : Msg) : Bool := false

/-- The containment test of get_emails_by_body, body in
email_message.get_payload(): on a leaf part the payload is a string and the
test is substring containment; on a multipart part the payload is the list
of sub-parts and the test is Python list membership of the query string. -/
def pyPayloadContains (q : Str) : Msg → Bool
  | .leaf _ p => isSubstr q p
  | .multi _ parts => parts.any (fun part => pyEqStrMsg q part)

/-- Model of Email.get_emails_by_body: the IMAP session is abstracted into
the list of parsed messages the ALL search yields in server order; the loop
appends every message whose payload passes the Python containment test. -/
def get_emails_by_body (mailbox : List Msg) (body : Str) : List Msg :=
  mailbox.foldl (fun emails msg =>
    if pyPayloadContains body msg then emails ++ [msg] else emails) []

/-- Loop of Email.get_emails_by_date: reading the Date header of a message
that has none yields Python None, and the containment test then raises
TypeError, modelled as none; otherwise matching messages are appended. -/
def getByDateGo (date : Str) (emails : List Msg) : List Msg → Option (List Msg)
  | [] => some emails
  | msg :: rest =>
    match msgGet msg (str "Date") with
    | none => none
    | some d => getByDateGo date (if isSubstr date d then emails ++ [msg] else emails) rest

/-- Model of Email.get_emails_by_date: fetches all messages in server order
and filters on Date-header containment; the whole call raises (none) when
some fetched message has no Date header. -/
def get_emails_by_date (mailbox : List Msg) (date : Str) : Option (List Msg) :=
  getByDateGo date [] mailbox

/-- Model of Email.get_attachments: walks every part of the tree, skips
multipart containers and parts without a Content-Disposition header, and
keeps the parts with a truthy filename, in walk order. -/
def get_attachments (m : Msg) : List Msg :=
  (walk m).foldl (fun attachments part =>
    if get_content_maintype part == str "multipart" then attachments
    else if (msgGet part (str "Content-Disposition")).isNone then attachments
    else
      let file_name := get_filename part
      if pyBool file_name then attachments ++ [part] else attachments) []

/-- Model of Email.get_email_body: a multipart part recurses into its first
sub-part via get_payload(0), which raises IndexError (none) on an empty
container; a leaf part returns its decoded payload via
get_payload(None, True). -/
def get_email_body : Msg → Option Str
  | .leaf h p => some (decodeTransfer h p)
  | .multi _ [] => none
  | .multi _ (p :: _) => get_email_body p

/-- One insertion into a Python dict represented as an association list in
insertion order: an existing key keeps its position and receives the new
value, a new key is appended. -/
def pyDictInsert : List (Str × Str) → Str → Str → List (Str × Str)
  | [], k, v => [(k, v)]
  | kv :: rest, k, v =>
    if kv.1 == k then (kv.1, v) :: rest else kv :: pyDictInsert rest k v

/-- Python dict built from a list of pairs: later pairs overwrite the value
of an equal (case-sensitive) key. -/
def pyDict (l : List (Str × Str)) : List (Str × Str) :=
  l.foldl (fun d kv => pyDictInsert d kv.1 kv.2) []

/-- Model of Email.get_email_headers, dict(email.items()): the stored
header pairs collected into a Python dict. -/
def get_email_headers (m : Msg) : List (Str × Str) :=
  pyDict (msgHeaders m)

/-- First-match lookup in an association list, the subscript operation of
the Python dict model. -/
def alLookup (k : Str) : List (Str × Str) → Option Str
  | [] => none
  | kv :: rest => if kv.1 == k then some kv.2 else alLookup k rest

/-- Lookup of the last occurrence of a key in an association list. -/
def alLookupLast (k : Str) (l : List (Str × Str)) : Option Str :=
  alLookup k l.reverse

mutual

/-- Modelled from the spec: the raw textual content of a message, the
payload of a leaf and the concatenated raw content of the sub-parts of a
multipart container. The spec filter for the body search reads raw payload
contains the query substring; this definition realizes that reading for
comparison with the source behaviour. -/
def specRawPayloadText : Msg → Str
  | .leaf _ p => p
  | .multi _ parts => specRawPayloadTextList parts

/-- Concatenated raw content of a list of sub-parts. -/
def specRawPayloadTextList : List Msg → Str
  | [] => []
  | m :: rest => specRawPayloadText m ++ specRawPayloadTextList rest

end

mutual

/-- Well-formedness of a message tree: every multipart container has at
least one sub-part. -/
def wfMsg : Msg → Bool
  | .leaf _ _ => true
  | .multi _ parts => !parts.isEmpty && wfList parts

/-- Well-formedness of every message of a list. -/
def wfList : List Msg → Bool
  | [] => true
  | m :: rest => wfMsg m && wfList rest

end

/-- Decidable success shape of a send_email outcome: a normal return whose
string is the success indicator or carries the failure description; used to
state that no exception escapes. -/
def returnedWithDescription : SendResult → Bool
  | .returned s =>
    s == str "Email sent successfully." || (str "Failed to send email. Error: ").isPrefixOf s
  | .raised _ => false

/-- Concrete environment whose filesystem refuses every read; the SMTP
stages all succeed. -/
def env0 : SmtpEnv :=
  ⟨fun _ => none, true, str "connection refused", true, str "authentication failed",
   true, fun _ => true, true, str "data error"⟩

/-- Concrete environment whose filesystem serves the bytes of Hello for
every path; the SMTP stages all succeed. -/
def env1 : SmtpEnv :=
  ⟨fun _ => some [72, 101, 108, 108, 111], true, str "connection refused",
   true, str "authentication failed", true, fun _ => true, true, str "data error"⟩

/-- Concrete plain-text leaf of the nested example message. -/
def exPlainLeaf : Msg := .leaf [(str "Content-Type", str "text/plain")] (str "plain text")

/-- Concrete html leaf of the nested example message. -/
def exHtmlLeaf : Msg := .leaf [(str "Content-Type", str "text/html")] (str "<p>html</p>")

/-- Concrete image leaf of the nested example message. -/
def exPngLeaf : Msg := .leaf [(str "Content-Type", str "image/png")] (str "PNGDATA")

/-- Concrete alternative container, the first branch of the nested example
message. -/
def exAltBranch : Msg :=
  .multi [(str "Content-Type", str "multipart/alternative")] [exPlainLeaf, exHtmlLeaf]

/-- Concrete nested multipart message of the spec scenario for body
extraction: the alternative branch first, then an image. -/
def exNestedMsg : Msg :=
  .multi [(str "Content-Type", str "multipart/mixed")] [exAltBranch, exPngLeaf]

/-- Concrete inline text leaf without a disposition header. -/
def exInlineLeaf : Msg := .leaf [(str "Content-Type", str "text/plain")] (str "hello body")

/-- Concrete attachment leaf advertising report.pdf. -/
def exPdfLeaf : Msg :=
  .leaf [(str "Content-Type", str "application/pdf"),
         (str "Content-Disposition", str "attachment; filename= report.pdf")]
        (str "PDFDATA")

/-- Concrete message tree of the spec scenario for attachment extraction:
one container, one inline leaf, one attachment leaf. -/
def exAttachTree : Msg :=
  .multi [(str "Content-Type", str "multipart/mixed")] [exInlineLeaf, exPdfLeaf]

/-- Concrete leaf whose payload holds the search text. -/
def exBodyLeaf : Msg := .leaf [(str "Content-Type", str "text/plain")] (str "hello world")

/-- Concrete multipart message whose raw content holds the search text only
inside its sub-part. -/
def exMultipartMail : Msg :=
  .multi [(str "Content-Type", str "multipart/alternative")] [exBodyLeaf]

/-- Concrete one-message mailbox for the body search. -/
def exMailbox : List Msg := [exMultipartMail]

/-- Concrete message carrying the same header name twice. -/
def exDupHeaderMsg : Msg :=
  .leaf [(str "Received", str "from alpha"), (str "Received", str "from beta")] (str "x")

/-- Concrete message without a Date header. -/
def exNoDateMsg : Msg := .leaf [(str "Subject", str "hi")] (str "x")

/-- Concrete message with a Date header. -/
def exDatedMsg : Msg := .leaf [(str "Date", str "Mon, 1 Jan 2024 10:00:00 +0000")] (str "x")

/-- Accumulating append loops, the shape of every collecting loop of the
source, compute a filter. -/
theorem foldl_append_eq_filter {α : Type} (p : α → Bool) (l : List α) :
    ∀ acc : List α,
      l.foldl (fun a x => if p x then a ++ [x] else a) acc = acc ++ l.filter p := by
  induction l with
  | nil => intro acc; simp
  | cons x t ih =>
    intro acc
    cases hp : p x <;> simp [hp, ih, List.filter_cons]

/-- Splitting always yields at least one chunk. -/
theorem splitOnChar_ne_nil (c : Char) (l : Str) : splitOnChar c l ≠ [] := by
  cases l with
  | nil => simp [splitOnChar]
  | cons a t =>
    simp only [splitOnChar]
    cases h : splitOnChar c t with
    | nil => simp
    | cons h2 r => cases hac : a == c <;> simp

/-- Splitting a string free of the separator yields the single chunk. -/
theorem splitOnChar_eq_single {c : Char} {l : Str} (h : c ∉ l) : splitOnChar c l = [l] := by
  induction l with
  | nil => rfl
  | cons a t ih =>
    have hmem : ¬(c = a ∨ c ∈ t) := by simpa using h
    have ha : (a == c) = false := by
      simp only [beq_eq_false_iff_ne]
      exact fun hac => hmem (Or.inl hac.symm)
    have ht := ih (fun hc => hmem (Or.inr hc))
    simp [splitOnChar, ht, ha]

/-- Splitting around the first separator occurrence. -/
theorem splitOnChar_append_cons {c : Char} {l1 : Str} (l2 : Str) (h : c ∉ l1) :
    splitOnChar c (l1 ++ c :: l2) = l1 :: splitOnChar c l2 := by
  induction l1 with
  | nil =>
    simp only [List.nil_append, splitOnChar]
    cases hs : splitOnChar c l2 with
    | nil => exact absurd hs (splitOnChar_ne_nil c l2)
    | cons h2 r => simp
  | cons a t ih =>
    have hmem : ¬(c = a ∨ c ∈ t) := by simpa using h
    have ha : (a == c) = false := by
      simp only [beq_eq_false_iff_ne]
      exact fun hac => hmem (Or.inl hac.symm)
    have ht := ih (fun hc => hmem (Or.inr hc))
    simp only [List.cons_append, splitOnChar, List.append_eq]
    rw [ht]
    simp [ha]

/-- Locating the first occurrence of the split character. -/
theorem splitAtFirst_append_cons {c : Char} {l1 : Str} (l2 : Str) (h : c ∉ l1) :
    splitAtFirst c (l1 ++ c :: l2) = some (l1, l2) := by
  induction l1 with
  | nil => simp [splitAtFirst]
  | cons a t ih =>
    have hmem : ¬(c = a ∨ c ∈ t) := by simpa using h
    have ha : (a == c) = false := by
      simp only [beq_eq_false_iff_ne]
      exact fun hac => hmem (Or.inl hac.symm)
    have ht := ih (fun hc => hmem (Or.inr hc))
    simp [splitAtFirst, ha, ht]

/-- A string free of the split character does not split. -/
theorem splitAtFirst_no_occ {c : Char} {l : Str} (h : c ∉ l) : splitAtFirst c l = none := by
  induction l with
  | nil => rfl
  | cons a t ih =>
    have hmem : ¬(c = a ∨ c ∈ t) := by simpa using h
    have ha : (a == c) = false := by
      simp only [beq_eq_false_iff_ne]
      exact fun hac => hmem (Or.inl hac.symm)
    have ht := ih (fun hc => hmem (Or.inr hc))
    simp [splitAtFirst, ha, ht]

/-- Stripping ignores a leading whitespace character. -/
theorem strip_cons_ws {a : Char} (ha : a.isWhitespace = true) (l : Str) :
    strip (a :: l) = strip l := by
  simp [strip, stripL, List.dropWhile_cons, ha]

/-- Unquoting is the identity on a value that holds no double quote and no
opening angle bracket. -/
theorem unquote_eq_self {v : Str} (hq : '"' ∉ v) (ha : '<' ∉ v) : unquote v = v := by
  unfold unquote
  cases v with
  | nil => simp
  | cons x t =>
    have hxq : (x == '"') = false := by
      simp only [beq_eq_false_iff_ne]
      intro hx
      exact hq (by simp [hx])
    have hxa : (x == '<') = false := by
      simp only [beq_eq_false_iff_ne]
      intro hx
      exact ha (by simp [hx])
    simp [hxq, hxa]

/-- A list is a Boolean prefix of itself followed by anything. -/
theorem isPrefixOf_append_self (l t : Str) : l.isPrefixOf (l ++ t) = true := by
  simp [List.isPrefixOf_iff_prefix]

/-- Lookup distributes over append, preferring the left list. -/
theorem alLookup_append (k : Str) (l1 l2 : List (Str × Str)) :
    alLookup k (l1 ++ l2) = Option.or (alLookup k l1) (alLookup k l2) := by
  induction l1 with
  | nil => simp [alLookup, Option.or]
  | cons kv t ih =>
    cases hk : kv.1 == k with
    | true => simp [alLookup, hk, Option.or]
    | false => simpa [alLookup, hk] using ih

/-- Looking up the key just inserted into the dict model yields the new
value. -/
theorem alLookup_pyDictInsert_self (d : List (Str × Str)) (k v : Str) :
    alLookup k (pyDictInsert d k v) = some v := by
  induction d with
  | nil => simp [pyDictInsert, alLookup]
  | cons kv rest ih =>
    cases hk : kv.1 == k with
    | true => simp [pyDictInsert, hk, alLookup]
    | false => simpa [pyDictInsert, hk, alLookup] using ih

/-- Inserting under a different key does not change a lookup. -/
theorem alLookup_pyDictInsert_ne {k k' : Str} (hne : k' ≠ k) (d : List (Str × Str))
    (v : Str) : alLookup k (pyDictInsert d k' v) = alLookup k d := by
  induction d with
  | nil =>
    have h : (k' == k) = false := by simpa [beq_eq_false_iff_ne] using hne
    simp [pyDictInsert, alLookup, h]
  | cons kv rest ih =>
    cases hk : kv.1 == k' with
    | true =>
      have hkv : kv.1 = k' := by simpa using hk
      have h2 : (kv.1 == k) = false := by
        simp only [beq_eq_false_iff_ne, hkv]
        exact hne
      simp [pyDictInsert, hk, alLookup, h2]
    | false =>
      cases hkk : kv.1 == k with
      | true => simp [pyDictInsert, hk, alLookup, hkk]
      | false => simpa [pyDictInsert, hk, alLookup, hkk] using ih

/-- Any key of the dict after an insertion was a key before or is the
inserted one. -/
theorem mem_keys_pyDictInsert {x : Str} {d : List (Str × Str)} {k v : Str}
    (hx : x ∈ (pyDictInsert d k v).map Prod.fst) :
    x ∈ d.map Prod.fst ∨ x = k := by
  induction d with
  | nil => simpa [pyDictInsert] using hx
  | cons kv rest ih =>
    cases hk : kv.1 == k with
    | true =>
      simp only [pyDictInsert, hk, if_true] at hx
      left
      simpa using hx
    | false =>
      simp only [pyDictInsert, hk, if_false, Bool.false_eq_true, List.map_cons,
        List.mem_cons] at hx
      rcases hx with hx | hx
      · exact Or.inl (by simp [hx])
      · rcases ih hx with h | h
        · exact Or.inl (by simp [h])
        · exact Or.inr h

/-- Insertion preserves distinctness of the dict keys. -/
theorem keys_nodup_pyDictInsert {d : List (Str × Str)} {k v : Str}
    (hd : (d.map Prod.fst).Nodup) :
    ((pyDictInsert d k v).map Prod.fst).Nodup := by
  induction d with
  | nil => simp [pyDictInsert]
  | cons kv rest ih =>
    simp only [List.map_cons, List.nodup_cons] at hd
    cases hk : kv.1 == k with
    | true =>
      simp only [pyDictInsert, hk, if_true, List.map_cons, List.nodup_cons]
      exact hd
    | false =>
      simp only [pyDictInsert, hk, if_false, Bool.false_eq_true, List.map_cons,
        List.nodup_cons]
      refine ⟨fun hmem => ?_, ih hd.2⟩
      rcases mem_keys_pyDictInsert hmem with h | h
      · exact hd.1 h
      · rw [h] at hk
        simp at hk

/-- Folding the header pairs into the dict model resolves a lookup to the
last occurrence of the key among the pairs, falling back to the
accumulator. -/
theorem alLookup_pyDict_go (k : Str) :
    ∀ (l acc : List (Str × Str)),
      alLookup k (l.foldl (fun d kv => pyDictInsert d kv.1 kv.2) acc)
        = Option.or (alLookupLast k l) (alLookup k acc) := by
  intro l
  induction l with
  | nil => intro acc; simp [alLookupLast, alLookup, Option.or]
  | cons kv t ih =>
    intro acc
    rw [List.foldl_cons, ih]
    have hLast : alLookupLast k (kv :: t)
        = Option.or (alLookupLast k t) (alLookup k [kv]) := by
      simp only [alLookupLast, List.reverse_cons, alLookup_append]
    rw [hLast]
    cases hT : alLookupLast k t with
    | some d => simp [Option.or]
    | none =>
      simp only [Option.or]
      by_cases hk : kv.1 = k
      · subst hk
        rw [alLookup_pyDictInsert_self acc kv.1 kv.2]
        simp [alLookup]
      · rw [alLookup_pyDictInsert_ne hk acc kv.2]
        have h2 : (kv.1 == k) = false := by simpa [beq_eq_false_iff_ne] using hk
        simp [alLookup, h2]

/-- Folding the header pairs into the dict model keeps the keys distinct. -/
theorem keys_nodup_pyDict_go :
    ∀ (l acc : List (Str × Str)), ((acc.map Prod.fst).Nodup) →
      (((l.foldl (fun d kv => pyDictInsert d kv.1 kv.2) acc).map Prod.fst).Nodup) := by
  intro l
  induction l with
  | nil => intro acc h; simpa using h
  | cons kv t ih =>
    intro acc h
    rw [List.foldl_cons]
    exact ih _ (keys_nodup_pyDictInsert h)

/-- The date loop on a mailbox whose messages all carry a Date header
computes the filter by Date containment, appended to the accumulator. -/
theorem getByDateGo_eq_filter (q : Str) :
    ∀ (l acc : List Msg),
      (∀ m ∈ l, (msgGet m (str "Date")).isSome = true) →
      getByDateGo q acc l
        = some (acc ++ l.filter (fun m =>
            match msgGet m (str "Date") with
            | some d => isSubstr q d
            | none => false)) := by
  intro l
  induction l with
  | nil => intro acc _; simp [getByDateGo]
  | cons m t ih =>
    intro acc h
    have hm : (msgGet m (str "Date")).isSome = true := h m (List.mem_cons_self m t)
    obtain ⟨d, hd⟩ := Option.isSome_iff_exists.mp hm
    have ht := ih (if isSubstr q d then acc ++ [m] else acc)
      (fun x hx => h x (List.mem_cons_of_mem _ hx))
    simp only [getByDateGo, hd] at ht ⊢
    rw [ht, List.filter_cons]
    cases hsub : isSubstr q d <;> simp [hd, hsub]

/-- On a well-formed tree the body extraction always produces a value. -/
theorem get_email_body_isSome :
    ∀ m : Msg, wfMsg m = true → (get_email_body m).isSome = true
  | .leaf _ _, _ => rfl
  | .multi _ (p :: _), h => by
      have hp : wfMsg p = true := by
        simp [wfMsg, wfList] at h
        exact h.1
      simpa [get_email_body] using get_email_body_isSome p hp

/-- The guarded session of send_email always returns a string result: the
success indicator or the failure description. -/
theorem trySend_returns (env : SmtpEnv) (recipients : List Str) (msg : Msg) :
    returnedWithDescription (trySend env recipients msg) = true := by
  unfold trySend
  cases hc : env.connectOk with
  | false => simp [returnedWithDescription, isPrefixOf_append_self]
  | true =>
    cases hl : env.loginOk with
    | false => simp [returnedWithDescription, isPrefixOf_append_self]
    | true =>
      simp only [Bool.not_true, if_false, Bool.false_eq_true]
      cases hs : sendmailModel env recipients with
      | error e => simp [returnedWithDescription, isPrefixOf_append_self]
      | ok u => simp [returnedWithDescription]

/-- The collecting step of get_attachments is the conditional append on the
conjunction of the three part conditions. -/
theorem get_attachments_step (acc : List Msg) (part : Msg) :
    (if get_content_maintype part == str "multipart" then acc
     else if (msgGet part (str "Content-Disposition")).isNone then acc
     else
       let file_name := get_filename part
       if pyBool file_name then acc ++ [part] else acc)
    = (if (!(get_content_maintype part == str "multipart")
          && !(msgGet part (str "Content-Disposition")).isNone
          && pyBool (get_filename part)) then acc ++ [part] else acc) := by
  cases h1 : get_content_maintype part == str "multipart" <;>
    cases h2 : (msgGet part (str "Content-Disposition")).isNone <;>
      cases h3 : pyBool (get_filename part) <;> simp [h1, h2, h3]

/-- Parsing the disposition header built by send_email recovers the
bare attribute and the filename parameter, for a benign filename: one free
of semicolons, not whitespace-padded. -/
theorem parseParams_disposition (f : Str) (hsemi : ';' ∉ f)
    (hL : stripL f = f) (hR : stripR f = f) :
    parseParams (str "attachment; filename= " ++ f)
      = [(str "attachment", []), (str "filename", f)] := by
  have hstripf : strip f = f := by rw [strip, hL, hR]
  have hv : str "attachment; filename= " ++ f
      = str "attachment" ++ ';' :: (str " filename= " ++ f) := by
    have h0 : str "attachment; filename= " = str "attachment" ++ ';' :: str " filename= " := by
      decide
    rw [h0]
    simp [List.append_assoc]
  have hnot : ';' ∉ str " filename= " ++ f := by
    intro hmem
    rcases List.mem_append.mp hmem with h | h
    · exact absurd h (by decide)
    · exact hsemi h
  have hsplit : splitOnChar ';' (str "attachment; filename= " ++ f)
      = [str "attachment", str " filename= " ++ f] := by
    rw [hv, splitOnChar_append_cons _ (by decide), splitOnChar_eq_single hnot]
  have hsf : splitAtFirst '=' (str " filename= " ++ f) = some (str " filename", ' ' :: f) := by
    have h0 : str " filename= " ++ f = str " filename" ++ '=' :: (' ' :: f) := by
      have h1 : str " filename= " = str " filename" ++ '=' :: [' '] := by decide
      rw [h1]
      simp [List.append_assoc]
    rw [h0, splitAtFirst_append_cons _ (by decide)]
  unfold parseParams
  rw [hsplit]
  simp only [List.map_cons, List.map_nil]
  rw [hsf, splitAtFirst_no_occ (show ('=') ∉ str "attachment" by decide)]
  have e1 : strLower (strip (str "attachment")) = str "attachment" := by decide
  have e2 : strLower (strip (str " filename")) = str "filename" := by decide
  have e3 : strip (' ' :: f) = f := by rw [strip_cons_ws (by decide) f, hstripf]
  simp [e1, e2, e3]

/-- On any part whose Content-Disposition header is the one send_email
builds, get_filename returns the benign filename: the whitespace stripping
and unquoting of the CPython parser are the identity on it. -/
theorem get_filename_of_disposition (f : Str) (hsemi : ';' ∉ f) (hquote : '"' ∉ f)
    (hangle : '<' ∉ f) (hL : stripL f = f) (hR : stripR f = f) (m : Msg)
    (hm : msgGet m (str "Content-Disposition") = some (str "attachment; filename= " ++ f)) :
    get_filename m = some f := by
  have hstripf : strip f = f := by rw [strip, hL, hR]
  have hgp : getParamVal m (str "Content-Disposition") (str "filename")
      = some (unquote f) := by
    unfold getParamVal
    rw [hm]
    simp only [Option.some_bind]
    rw [parseParams_disposition f hsemi hL hR]
    rw [List.find?_cons_of_neg _ (by decide), List.find?_cons_of_pos _ (by simp)]
    simp
  unfold get_filename
  rw [hgp]
  simp [unquote_eq_self hquote hangle, hstripf]

/-- With the session and MAIL FROM succeeding, the guarded block on an
empty recipient list returns the recipients-refused error string. -/
theorem trySend_empty_recipients (env : SmtpEnv) (msg : Msg)
    (h1 : env.connectOk = true) (h2 : env.loginOk = true) (h3 : env.mailFromOk = true) :
    trySend env [] msg
      = SendResult.returned (str "Failed to send email. Error: "
          ++ str "SMTPRecipientsRefused: all recipients were refused") := by
  simp [trySend, sendmailModel, h1, h2, h3, List.eraseDups, List.eraseDups.loop]

/-- C1 counterexample: when opening the attachment file fails, send_email
raises the file error to the caller instead of returning an error result,
because the read happens before the try block. -/
theorem claim_C1_counterexample :
    send_email env0 (str "me@x.com") [str "you@x.com"] (str "S") (str "B")
        (some (str "missing.txt"))
      = SendResult.raised (str "FileNotFoundError: No such file or directory: missing.txt") := by
  rfl

/-- C1 amended: when the attachment path, if given, is readable, send_email
never raises: every outcome of session open, authentication and submission
is returned as a string result, the success indicator or a failure
description. A file-read error on the attachment path, however, raises. -/
theorem claim_C1_send_returns_result (env : SmtpEnv) (sender : Str)
    (recipients : List Str) (subject body : Str) (attachment : Option Str)
    (hfs : ∀ p, attachment = some p → (env.fs p).isSome = true) :
    returnedWithDescription (send_email env sender recipients subject body attachment)
      = true := by
  cases attachment with
  | none =>
    exact trySend_returns env recipients
      (buildMessage sender recipients subject body none)
  | some path =>
    cases hpe : path.isEmpty with
    | true =>
      simp only [send_email]
      rw [if_pos hpe]
      exact trySend_returns env recipients
        (buildMessage sender recipients subject body none)
    | false =>
      have h1 := hfs path rfl
      obtain ⟨c, hc⟩ := Option.isSome_iff_exists.mp h1
      simp only [send_email]
      rw [if_neg (by simp [hpe]), hc]
      exact trySend_returns env recipients
        (buildMessage sender recipients subject body (some (attachmentPart path c)))

/-- C1 witness: a concrete send with a readable attachment returns a string
result. -/
theorem claim_C1_witness :
    returnedWithDescription (send_email env1 (str "me@x.com") [str "you@x.com"]
      (str "S") (str "B") (some (str "test.txt"))) = true :=
  claim_C1_send_returns_result env1 (str "me@x.com") [str "you@x.com"] (str "S")
    (str "B") (some (str "test.txt")) (fun p hp => by cases hp; rfl)

/-- C2: with the session, login and MAIL FROM succeeding, send_email on the
empty recipient list returns the recipients-refused error result and never
the success indicator, for any attachment argument: the modelled
smtplib.sendmail raises SMTPRecipientsRefused when the refused set is as
large as the recipient list, which holds vacuously for zero recipients, and
the handler converts that into the error string. -/
theorem claim_C2_empty_recipients_rejected (env : SmtpEnv) (sender subject body : Str)
    (attachment : Option Str) (h1 : env.connectOk = true) (h2 : env.loginOk = true)
    (h3 : env.mailFromOk = true) :
    send_email env sender [] subject body attachment
        ≠ SendResult.returned (str "Email sent successfully.")
    ∧ send_email env sender [] subject body none
        = SendResult.returned (str "Failed to send email. Error: "
            ++ str "SMTPRecipientsRefused: all recipients were refused") := by
  have hfail : ∀ msg : Msg, trySend env [] msg
      ≠ SendResult.returned (str "Email sent successfully.") := by
    intro msg h
    rw [trySend_empty_recipients env msg h1 h2 h3] at h
    have := SendResult.returned.inj h
    exact absurd this (by decide)
  constructor
  · cases attachment with
    | none => exact hfail (buildMessage sender [] subject body none)
    | some path =>
      cases hpe : path.isEmpty with
      | true =>
        simp only [send_email]
        rw [if_pos hpe]
        exact hfail (buildMessage sender [] subject body none)
      | false =>
        simp only [send_email]
        rw [if_neg (by simp [hpe])]
        cases hc : env.fs path with
        | none => simp
        | some c =>
          exact hfail (buildMessage sender [] subject body
            (some (attachmentPart path c)))
  · exact trySend_empty_recipients env (buildMessage sender [] subject body none) h1 h2 h3

/-- C2 witness: a concrete empty send is rejected with the error result. -/
theorem claim_C2_witness :
    send_email env1 (str "me@x.com") [] (str "S") (str "B") none
        ≠ SendResult.returned (str "Email sent successfully.")
    ∧ send_email env1 (str "me@x.com") [] (str "S") (str "B") none
        = SendResult.returned (str "Failed to send email. Error: "
            ++ str "SMTPRecipientsRefused: all recipients were refused") :=
  claim_C2_empty_recipients_rejected env1 (str "me@x.com") (str "S") (str "B")
    none rfl rfl rfl

/-- C3: for a non-empty recipient list, the message send_email builds with
no attachment carries a To header that is the comma-space join of the
recipients in order, and its body part decodes to exactly the given body
string. -/
theorem claim_C3_to_header_and_body (sender : Str) (recipients : List Str)
    (subject body : Str) (_hne : recipients ≠ []) :
    msgGet (buildMessage sender recipients subject body none) (str "To")
        = some (List.intercalate (str ", ") recipients)
    ∧ get_email_body (buildMessage sender recipients subject body none) = some body :=
  ⟨rfl, rfl⟩

/-- C3 witness: a concrete two-recipient build joins the addresses with
comma-space and the body part decodes to the body. -/
theorem claim_C3_witness :
    msgGet (buildMessage (str "me@x.com") [str "a@x.com", str "b@x.com"]
        (str "S") (str "B") none) (str "To") = some (str "a@x.com, b@x.com")
    ∧ get_email_body (buildMessage (str "me@x.com") [str "a@x.com", str "b@x.com"]
        (str "S") (str "B") none) = some (str "B") := by
  have h := claim_C3_to_header_and_body (str "me@x.com") [str "a@x.com", str "b@x.com"]
    (str "S") (str "B") (by simp)
  refine ⟨?_, h.2⟩
  rw [h.1]
  decide

/-- C4 counterexample: a multipart message whose raw content holds the
query is not returned by the body search, so the search does not return
every message whose raw payload holds the query substring. -/
theorem claim_C4_counterexample :
    ¬ (get_emails_by_body exMailbox (str "hello")
        = exMailbox.filter (fun m => isSubstr (str "hello") (specRawPayloadText m))) := by
  intro h
  exact absurd (congrArg List.length h) (by decide)

/-- C4 amended: the body search fetches all messages and returns, in server
order, exactly the subsequence passing the Python containment test: a leaf
message is kept when its payload string holds the query substring, and a
multipart message is never kept, because the test is list membership of the
query among its sub-part objects; an empty mailbox yields the empty
sequence. -/
theorem claim_C4_returns_leaf_matches (mailbox : List Msg) (q : Str) :
    get_emails_by_body mailbox q = mailbox.filter (pyPayloadContains q)
    ∧ get_emails_by_body ([] : List Msg) q = []
    ∧ (get_emails_by_body mailbox q).Sublist mailbox
    ∧ ∀ h parts, Msg.multi h parts ∉ get_emails_by_body mailbox q := by
  have he : get_emails_by_body mailbox q = mailbox.filter (pyPayloadContains q) := by
    have h0 := foldl_append_eq_filter (pyPayloadContains q) mailbox []
    simpa [get_emails_by_body] using h0
  refine ⟨he, rfl, ?_, ?_⟩
  · rw [he]
    exact List.filter_sublist mailbox
  · intro h parts hmem
    rw [he] at hmem
    have h2 := (List.mem_filter.mp hmem).2
    simp [pyPayloadContains, pyEqStrMsg] at h2

/-- C5 counterexample: a message carrying the same header name twice loses
an occurrence in the mapping get_email_headers returns. -/
theorem claim_C5_counterexample :
    ¬ (get_email_headers exDupHeaderMsg = msgHeaders exDupHeaderMsg) := by
  intro h
  exact absurd (congrArg List.length h) (by decide)

/-- C5 amended: the mapping get_email_headers returns keeps exactly one
entry per distinct stored header name, and looking a name up yields the
value of its last occurrence among the message headers, not all
occurrences. -/
theorem claim_C5_last_occurrence_wins (m : Msg) (k : Str) :
    alLookup k (get_email_headers m) = alLookupLast k (msgHeaders m)
    ∧ ((get_email_headers m).map Prod.fst).Nodup := by
  constructor
  · have h0 := alLookup_pyDict_go k (msgHeaders m) []
    simpa [get_email_headers, pyDict, alLookup, Option.or_none] using h0
  · exact keys_nodup_pyDict_go (msgHeaders m) [] (by simp)

/-- C6: body extraction recurses into sub-part index zero of a multipart
container, returns the decoded raw content of a leaf part, and on the
nested scenario, alternative branch before an image, it follows the first
branch only, yielding the plain text of that branch. -/
theorem claim_C6_first_branch_policy (h hs : List (Str × Str)) (parts : List Msg)
    (p : Msg) (payload : Str) :
    get_email_body (Msg.multi h (p :: parts)) = get_email_body p
    ∧ get_email_body (Msg.leaf hs payload) = some (decodeTransfer hs payload)
    ∧ get_email_body exNestedMsg = some (str "plain text") :=
  ⟨rfl, rfl, rfl⟩

/-- C7: attachment extraction returns, in tree-walk order, exactly the
parts that are not of multipart major type, carry a Content-Disposition
header and have a truthy filename; on the scenario tree with one container,
one inline leaf and one report.pdf leaf, it returns only the report.pdf
part. -/
theorem claim_C7_attachment_filter (m : Msg) :
    get_attachments m = (walk m).filter (fun part =>
      !(get_content_maintype part == str "multipart")
      && !(msgGet part (str "Content-Disposition")).isNone
      && pyBool (get_filename part))
    ∧ get_attachments exAttachTree = [exPdfLeaf] := by
  constructor
  · unfold get_attachments
    have hfun : (fun (attachments : List Msg) (part : Msg) =>
        if get_content_maintype part == str "multipart" then attachments
        else if (msgGet part (str "Content-Disposition")).isNone then attachments
        else
          let file_name := get_filename part
          if pyBool file_name then attachments ++ [part] else attachments)
        = (fun (acc : List Msg) (part : Msg) =>
            if (!(get_content_maintype part == str "multipart")
               && !(msgGet part (str "Content-Disposition")).isNone
               && pyBool (get_filename part)) then acc ++ [part] else acc) := by
      funext acc part
      exact get_attachments_step acc part
    rw [hfun, foldl_append_eq_filter (fun part =>
      !(get_content_maintype part == str "multipart")
      && !(msgGet part (str "Content-Disposition")).isNone
      && pyBool (get_filename part)) (walk m) []]
    simp
  · rfl

/-- C8 counterexample: on a mailbox holding a message without a Date
header, the date search raises instead of returning the empty sequence the
claim requires for a no-match mailbox. -/
theorem claim_C8_counterexample :
    ¬ (get_emails_by_date [exNoDateMsg] (str "Mon")
        = some ([exNoDateMsg].filter (fun m =>
            match msgGet m (str "Date") with
            | some d => isSubstr (str "Mon") d
            | none => false))) := by
  intro h
  rw [show get_emails_by_date [exNoDateMsg] (str "Mon") = none from rfl] at h
  exact Option.noConfusion h

/-- C8 amended: on a mailbox whose fetched messages all carry a Date
header, the date search returns exactly those whose Date header holds the
query substring, in server order, and the empty mailbox yields the empty
sequence, not an error; a fetched message without a Date header instead
makes the whole call raise. -/
theorem claim_C8_date_filter (mailbox : List Msg) (q : Str)
    (hdates : ∀ m ∈ mailbox, (msgGet m (str "Date")).isSome = true) :
    get_emails_by_date mailbox q
        = some (mailbox.filter (fun m =>
            match msgGet m (str "Date") with
            | some d => isSubstr q d
            | none => false))
    ∧ get_emails_by_date ([] : List Msg) q = some [] := by
  constructor
  · have h0 := getByDateGo_eq_filter q mailbox [] hdates
    simpa [get_emails_by_date] using h0
  · rfl

/-- C8 witness: a concrete dated mailbox is filtered by Date containment. -/
theorem claim_C8_witness :
    get_emails_by_date [exDatedMsg] (str "Jan")
        = some ([exDatedMsg].filter (fun m =>
            match msgGet m (str "Date") with
            | some d => isSubstr (str "Jan") d
            | none => false))
    ∧ get_emails_by_date ([] : List Msg) (str "Jan") = some [] :=
  claim_C8_date_filter [exDatedMsg] (str "Jan")
    (fun m hm => by
      rw [List.mem_singleton] at hm
      subst hm
      rfl)

/-- C9 counterexample: for an attachment path whose last segment holds a
semicolon, the advertised filename read back from the built disposition
header is truncated at the semicolon and differs from the last path
segment. -/
theorem claim_C9_counterexample :
    ¬ (get_filename (attachmentPart (str "a;b.txt") [])
        = some (lastSegment (str "a;b.txt"))) := by
  decide

/-- C9 amended: for every attachment path whose last segment has no leading
or trailing whitespace and holds no semicolon, double quote or opening
angle bracket, the disposition header of the built attachment part
advertises exactly that last segment as the filename, as read back by the
CPython filename parser. -/
theorem claim_C9_advertised_filename (path : Str) (contents : List Nat)
    (hsemi : ';' ∉ lastSegment path) (hquote : '"' ∉ lastSegment path)
    (hangle : '<' ∉ lastSegment path)
    (hL : stripL (lastSegment path) = lastSegment path)
    (hR : stripR (lastSegment path) = lastSegment path) :
    get_filename (attachmentPart path contents) = some (lastSegment path) := by
  apply get_filename_of_disposition (lastSegment path) hsemi hquote hangle hL hR
  rfl

/-- C9 witness: the scenario path test.txt advertises the filename
test.txt. -/
theorem claim_C9_witness :
    get_filename (attachmentPart (str "test.txt") [72, 101, 108, 108, 111])
      = some (str "test.txt") := by
  have h := claim_C9_advertised_filename (str "test.txt") [72, 101, 108, 108, 111]
    (by decide) (by decide) (by decide) (by decide) (by decide)
  rw [h]
  decide

/-- C10: on every well-formed message tree, one in which each multipart
container has at least one sub-part, body extraction terminates with a
value; on a multipart container with zero sub-parts the index-zero access
is out of bounds, modelled as the none outcome, so totality needs that
precondition. -/
theorem claim_C10_body_total (m : Msg) (hs : List (Str × Str))
    (hwf : wfMsg m = true) :
    (get_email_body m).isSome = true ∧ get_email_body (Msg.multi hs []) = none :=
  ⟨get_email_body_isSome m hwf, rfl⟩

/-- C10 witness: the nested example tree is well-formed and yields a body;
the empty container yields none. -/
theorem claim_C10_witness :
    (get_email_body exNestedMsg).isSome = true
    ∧ get_email_body (Msg.multi [] []) = none :=
  claim_C10_body_total exNestedMsg [] rfl

end EmailManager
